import Mathlib

/-!
Verification development for the ContractAnalyzer repository: a shallow
embedding of its daily profit analysis engine (analyzer.ts, the Etherscan
client, the batching and fan-out scripts), with theorems checking the
specification claims against the embedded code.

Conventions of the embedding:
* Decimal string fields of Etherscan records (gasUsed, gasPrice, value,
  timeStamp) are carried as the integers that BigInt(...) / parseInt(...)
  produce from them; addresses and hashes stay String.
* Async functions become pure functions over an Env record holding the
  results of the external lookups (one field per upstream operation).
* The JavaScript Date.UTC call is embedded by the standard
  proleptic-Gregorian days-from-civil computation, and Date.now() / 1000
  by a rational Env.now.
-/

namespace ContractAnalyzerSpec

/-- Embeds the EtherscanTransaction record of types.ts (a txlist row),
restricted to the fields the analyzer reads; numeric decimal strings are
carried as their integer values. -/
structure EtherscanTransaction where
  blockNumber : String
  timeStamp : Int
  hash : String
  «from» : String
  «to» : String
  value : Int
  gasPrice : Int
  gasUsed : Int
deriving DecidableEq

/-- Embeds the InternalTransaction record of types.ts, restricted to the
fields the analyzer reads. -/
structure InternalTransaction where
  hash : String
  «from» : String
  «to» : String
  value : Int
deriving DecidableEq

/-- Embeds the TransactionProfit record of types.ts.  The timestamp field
of the source is new Date(parseInt(tx.timeStamp) * 1000).toISOString(), a
fixed injective rendering of the integer timestamp; the embedding carries
the integer argument.  The type field of the source is
getTypeFromValue(value); see Env.getTypeFromValue. -/
structure TransactionProfit where
  hash : String
  timestamp : Int
  blockNumber : String
  gasFee : Int
  contractToWalletValue : Int
  contractToOriginValue : Int
  totalInternalValue : Int
  netProfit : Int
  «from» : String
  type : Int
deriving DecidableEq

/-- Embeds the DailyAnalysis record of types.ts. -/
structure DailyAnalysis where
  date : String
  transactions : List TransactionProfit
  totalProfit : Int
  totalTransactions : Nat
  totalGasFees : Int
  totalInternalValue : Int
deriving DecidableEq

/-- The closest argument of the Etherscan getblocknobytime endpoint. -/
inductive Closest where
  | before
  | after
deriving DecidableEq

/-- Results of the external lookups one analysis run performs, one field
per upstream operation of the EtherscanAPI class (plus the wall clock).
The getTypeFromValue field stands for the function imported from
utils/utils, which is not present under src/; its call site
getTypeFromValue(value) shows it is a pure function of the wei value,
which is all this development relies on. -/
structure Env where
  getLatestBlock : Nat
  getBlockByTimestamp : Int → Closest → Nat
  getContractTransactions : String → Nat → Nat → List EtherscanTransaction
  getInternalTransactions : String → List InternalTransaction
  now : ℚ
  getTypeFromValue : Int → Int

/-- Embeds the JavaScript String.prototype.toLowerCase call as applied to
addresses: the characterwise ASCII lowercase map. -/
def toLowerCase (s : String) : String :=
  ⟨s.data.map Char.toLower⟩

/-- State of a constructed ContractAnalyzer: both configured addresses are
normalized to lowercase by the constructor (analyzer.ts, lines 35 to 43). -/
structure Analyzer where
  contractAddress : String
  mainWalletAddress : String
deriving DecidableEq

/-- Embeds the ContractAnalyzer constructor: it lowercases both configured
addresses before storing them. -/
def Analyzer.make (contractAddress mainWalletAddress : String) : Analyzer :=
  { contractAddress := toLowerCase contractAddress
    mainWalletAddress := toLowerCase mainWalletAddress }

/-- Days from 1970-01-01 to the proleptic-Gregorian civil date y-m-d (the
day count underlying the ECMAScript Date.UTC call); the standard
days-from-civil computation, with / the flooring integer division. -/
def daysFromCivil (y m d : Int) : Int :=
  let yAdj := if m ≤ 2 then y - 1 else y
  let era := yAdj / 400
  let yoe := yAdj - era * 400
  let mp := (m + 9) % 12
  let doy := (153 * mp + 2) / 5 + (d - 1)
  let doe := yoe * 365 + yoe / 4 - yoe / 100 + doy
  era * 146097 + doe - 719468

/-- Embeds Math.floor(Date.UTC(y, m - 1, d, h, 0, 0) / 1000): seconds from
the epoch to h:00:00 UTC on civil date y-m-d (the analyzer passes the
1-based month m as the 0-based m - 1 to Date.UTC). -/
def dateUTCSeconds (y m d h : Int) : Int :=
  daysFromCivil y m d * 86400 + h * 3600

/-- Splits a character list at dash characters, the embedding of the
JavaScript date.split("-") call. -/
def splitOnDash : List Char → List (List Char)
  | [] => [[]]
  | c :: rest =>
    if c = '-' then [] :: splitOnDash rest
    else
      match splitOnDash rest with
      | [] => [[c]]
      | h :: t => (c :: h) :: t

/-- Embeds the JavaScript Number conversion of one date component: the
value of a non-empty all-digit string, and 0 otherwise (the validated
YYYY-MM-DD shape only produces the all-digit case; NaN, which Number
yields on other inputs, is collapsed to 0 here). -/
def numberOfDigits (cs : List Char) : Int :=
  (cs.foldl
    (fun acc c =>
      match acc with
      | none => none
      | some n => if c.isDigit then some (n * 10 + (c.toNat - 48)) else none)
    (some 0)).getD 0

/-- Embeds date.split("-").map(Number) destructured as [year, month, day]
(analyzer.ts, line 55), on the validated YYYY-MM-DD shape. -/
def parseDate (date : String) : Int × Int × Int :=
  match (splitOnDash date.data).map (fun t => (numberOfDigits t : Int)) with
  | [y, m, d] => (y, m, d)
  | _ => (0, 0, 0)

/-- The startTimestamp of the daily window: 14:00 UTC on the parsed date
(analyzer.ts, lines 55 to 60). -/
def startTimestampOf (date : String) : Int :=
  let (y, m, d) := parseDate date
  dateUTCSeconds y m d 14

/-- The endTimestamp of the daily window: startTimestamp + 86400
(analyzer.ts, line 61). -/
def endTimestampOf (date : String) : Int :=
  startTimestampOf date + 86400

/-- Embeds the endBlock resolution of analyzer.ts, lines 72 to 85: a
window end later than the wall clock falls back to the latest block
without a timestamp lookup; afterwards the value is clamped to the latest
block. -/
def resolveEndBlock (env : Env) (endTimestamp : Int) : Nat :=
  let latestBlock := env.getLatestBlock
  let endBlock :=
    if (endTimestamp : ℚ) > env.now then latestBlock
    else env.getBlockByTimestamp endTimestamp Closest.before
  if endBlock > latestBlock then latestBlock else endBlock

/-- The raw transactions the analyzer retains for the day: fetched over
the resolved block range, then filtered to startTimestamp ≤ timeStamp <
endTimestamp (analyzer.ts, lines 66 to 102). -/
def dayTransactionsOf (env : Env) (a : Analyzer) (date : String) :
    List EtherscanTransaction :=
  let startTimestamp := startTimestampOf date
  let endTimestamp := endTimestampOf date
  let startBlock := env.getBlockByTimestamp startTimestamp Closest.after
  let endBlock := resolveEndBlock env endTimestamp
  let transactions := env.getContractTransactions a.contractAddress startBlock endBlock
  transactions.filter fun tx =>
    decide (startTimestamp ≤ tx.timeStamp) && decide (tx.timeStamp < endTimestamp)

/-- Embeds ContractAnalyzer.analyzeTransaction (analyzer.ts, lines 154 to
209). -/
def analyzeTransaction (env : Env) (a : Analyzer) (tx : EtherscanTransaction) :
    TransactionProfit :=
  let gasFee := tx.gasUsed * tx.gasPrice
  let internalTxs := env.getInternalTransactions tx.hash
  let contractToWalletTxs := internalTxs.filter fun itx =>
    (toLowerCase itx.«from») == a.contractAddress && (toLowerCase itx.«to») == a.mainWalletAddress
  let contractToOriginTxs := internalTxs.filter fun itx =>
    (toLowerCase itx.«from») == a.contractAddress && (toLowerCase itx.«to») == (toLowerCase tx.«from») &&
      (toLowerCase itx.«to») != a.mainWalletAddress
  let contractToWalletValue := contractToWalletTxs.foldl (fun sum itx => sum + itx.value) 0
  let contractToOriginValue := contractToOriginTxs.foldl (fun sum itx => sum + itx.value) 0
  let totalInternalValue := contractToWalletValue + contractToOriginValue
  let netProfit := totalInternalValue - gasFee
  let value := tx.value
  { hash := tx.hash
    timestamp := tx.timeStamp
    blockNumber := tx.blockNumber
    gasFee
    contractToWalletValue
    contractToOriginValue
    totalInternalValue
    netProfit
    «from» := tx.«from»
    type := env.getTypeFromValue value }

/-- Embeds ContractAnalyzer.analyzeDailyTransactions (analyzer.ts, lines
51 to 146). -/
def analyzeDailyTransactions (env : Env) (a : Analyzer) (date : String) :
    DailyAnalysis :=
  let dayTransactions := dayTransactionsOf env a date
  let analyzedTransactions := dayTransactions.map (analyzeTransaction env a)
  let totalProfit := analyzedTransactions.foldl (fun sum tx => sum + tx.netProfit) 0
  let totalGasFees := analyzedTransactions.foldl (fun sum tx => sum + tx.gasFee) 0
  let totalInternalValue :=
    analyzedTransactions.foldl (fun sum tx => sum + tx.totalInternalValue) 0
  { date
    transactions := analyzedTransactions
    totalProfit
    totalTransactions := analyzedTransactions.length
    totalGasFees
    totalInternalValue }

/-- Case-insensitive address equality, the comparison the specification
describes: agreement after lowercasing both sides. -/
def eqCaseInsensitive (s t : String) : Bool :=
  toLowerCase s == toLowerCase t

/-- An environment whose internal-transfer lookup fails for the parent
hash X: the failing lookup yields the empty list, exactly what
getInternalTransactionsRun produces on a thrown or unsuccessful response,
while every other hash keeps its original rows. -/
def failInternalLookupAt (env : Env) (X : String) : Env :=
  { env with getInternalTransactions := fun h =>
      if h = X then [] else env.getInternalTransactions h }

/-- Embeds the EtherscanEvent record of types.ts, restricted to the block
number (carried as its integer value) and the transaction hash. -/
structure EtherscanEvent where
  transactionHash : String
  blockNumber : Nat
deriving DecidableEq

/-- One per-window upstream call under the assumption stated by the
batching claim: for the window lo to hi (bounds inclusive, as Etherscan
treats fromBlock and toBlock), the service returns exactly the records of
the universe whose block number lies in the window. -/
def windowRecords (univ : List EtherscanEvent) (lo hi : Nat) : List EtherscanEvent :=
  univ.filter fun e => decide (lo ≤ e.blockNumber) && decide (e.blockNumber ≤ hi)

/-- Embeds the batching loop of EtherscanAPI.getEventLogsByAddress
(etherscan.ts): the cursor i advances in steps of W while i ≤ toBlock,
each step fetching the window from i to (if toBlock > i + W then i + W
else toBlock) and appending the rows in order.  The source instantiates
W = 1000 there and W = 10000 in the swaap-transactions variant; the step
size is a parameter because the claim quantifies over it, and the guard
0 < W (true of both instantiations) bounds the recursion. -/
def getEventLogsLoop (univ : List EtherscanEvent) (toBlock W i : Nat) :
    List EtherscanEvent :=
  if _h : i ≤ toBlock ∧ 0 < W then
    windowRecords univ i (if toBlock > i + W then i + W else toBlock) ++
      getEventLogsLoop univ toBlock W (i + W)
  else []
termination_by toBlock + 1 - i
decreasing_by omega

/-- Embeds EtherscanAPI.getEventLogsByAddress (etherscan.ts): the batched
fetch over the inclusive block interval fromBlock to toBlock. -/
def getEventLogsByAddress (univ : List EtherscanEvent) (fromBlock toBlock W : Nat) :
    List EtherscanEvent :=
  getEventLogsLoop univ toBlock W fromBlock

/-- Outcome of one HTTP call of the Etherscan client: a response carrying
a status string and a result payload, or a thrown transport error. -/
inductive ApiResponse (α : Type) where
  | ok (status : String) (result : α)
  | threw
deriving DecidableEq

/-- Trace of one run of a client method: the value it returns, how many
upstream calls it made, and how many milliseconds it slept. -/
structure RunTrace (α : Type) where
  value : α
  calls : Nat
  sleptMs : Nat
deriving DecidableEq

/-- Embeds EtherscanAPI.getEventLogsByAddressAndTopic (etherscan.ts): on a
response whose status differs from "1" it sleeps 1000 ms, issues the call
once more and returns the result field of the second response whatever its
status; a thrown error from either call is caught, logged and an empty
list returned.  The two parameters are the outcomes of the first and
second upstream call. -/
def getEventLogsByAddressAndTopicRun
    (first second : ApiResponse (List EtherscanEvent)) :
    RunTrace (List EtherscanEvent) :=
  match first with
  | .threw => ⟨[], 1, 0⟩
  | .ok status result =>
    if status ≠ "1" then
      match second with
      | .threw => ⟨[], 2, 1000⟩
      | .ok _ result2 => ⟨result2, 2, 1000⟩
    else ⟨result, 1, 0⟩

/-- Embeds EtherscanAPI.getContractTransactions (etherscan.ts): one
upstream call, never repeated; status "1" returns the rows, any other
status an empty list, and a thrown transport error is wrapped and
rethrown. -/
def getContractTransactionsRun
    (resp : ApiResponse (List EtherscanTransaction)) :
    Except String (List EtherscanTransaction) :=
  match resp with
  | .threw => .error "Error fetching contract transactions"
  | .ok status result => if status = "1" then .ok result else .ok []

/-- Embeds EtherscanAPI.getInternalTransactions (etherscan.ts): status "1"
returns the rows; any other status, or a caught thrown error (which only
logs a warning), yields the empty list. -/
def getInternalTransactionsRun
    (resp : ApiResponse (List InternalTransaction)) :
    List InternalTransaction :=
  match resp with
  | .threw => []
  | .ok status result => if status = "1" then result else []

/-- Embeds EtherscanAPI.getEthPrice (etherscan.ts): status "1" returns the
ethusd field; any other status, or a caught thrown error, yields 0. -/
def getEthPriceRun (resp : ApiResponse ℚ) : ℚ :=
  match resp with
  | .threw => 0
  | .ok status result => if status = "1" then result else 0

/-- Transaction record of the RPC transaction lookup as read by
find-users.ts: only the recipient field, which is null for contract
creations, is consulted. -/
structure RpcTransaction where
  «to» : Option String
deriving DecidableEq

/-- Modelled from the spec: Ethereum.getTransactionByHash is called from
find-users.ts but its definition is not under src/; per the specification
each per-item failure of the discovery lookup is caught and substituted
with a neutral value, so the lookup is modelled as a total function
yielding none on failure and the transaction otherwise. -/
def getTransactionByHash (lookup : String → Option RpcTransaction)
    (hash : String) : Option RpcTransaction :=
  lookup hash

/-- Embeds the bounded-concurrency fan-out of find-users.ts: pMap with
stopOnError disabled runs the mapper for every hash and merges results by
original task position, and the mapper evaluates transaction?.to ?? "",
substituting the empty string when the lookup yields no transaction or the
transaction has no recipient. -/
def fanOutRecipients (lookup : String → Option RpcTransaction)
    (hashes : List String) : List String :=
  hashes.map fun hash =>
    match getTransactionByHash lookup hash with
    | none => ""
    | some t => t.«to».getD ""

/-- Fixture: an environment whose every lookup returns the neutral empty
or zero value. -/
def envBase : Env :=
  { getLatestBlock := 0
    getBlockByTimestamp := fun _ _ => 0
    getContractTransactions := fun _ _ _ => []
    getInternalTransactions := fun _ => []
    now := 0
    getTypeFromValue := fun _ => 0 }

/-- Fixture: an analyzer configured with mixed-case addresses. -/
def aSample : Analyzer :=
  Analyzer.make "0xAAA" "0xBBB"

/-- Fixture: the transaction of the worked gas-fee example, with
gasUsed 21000 and gasPrice 50000000000. -/
def txSample : EtherscanTransaction :=
  { blockNumber := "23000000"
    timeStamp := 1757512800
    hash := "0xh1"
    «from» := "0xCCC"
    «to» := "0xaaa"
    value := 0
    gasPrice := 50000000000
    gasUsed := 21000 }

/-- Fixture: the single contract-to-wallet internal transfer of the worked
example, carrying 2000000000000000 wei. -/
def itxSample : InternalTransaction :=
  { hash := "0xh1"
    «from» := "0xAaA"
    «to» := "0xBbB"
    value := 2000000000000000 }

/-- Fixture: the environment of the worked example, whose
internal-transfer lookup returns the single transfer for the sample
transaction hash. -/
def envSample : Env :=
  { envBase with getInternalTransactions := fun h =>
      if h = "0xh1" then [itxSample] else [] }

/-- Fixture: a transaction mined exactly at the window start
1757512800. -/
def txAtStart : EtherscanTransaction :=
  { txSample with hash := "0xs", timeStamp := 1757512800 }

/-- Fixture: a transaction mined one second before the window start. -/
def txJustBefore : EtherscanTransaction :=
  { txSample with hash := "0xb", timeStamp := 1757512799 }

/-- Fixture: a transaction mined exactly at the window end 1757599200. -/
def txAtEnd : EtherscanTransaction :=
  { txSample with hash := "0xe", timeStamp := 1757599200 }

/-- Fixture: an environment whose transaction listing returns the three
boundary transactions whatever block range is requested. -/
def envBoundary : Env :=
  { envBase with getContractTransactions := fun _ _ _ =>
      [txAtStart, txJustBefore, txAtEnd] }

/-- Fixture: a universe of three event records at blocks 5, 12 and 25. -/
def eventsUniv : List EtherscanEvent :=
  [⟨"0xe1", 5⟩, ⟨"0xe2", 12⟩, ⟨"0xe3", 25⟩]

/-- Fixture: one event record, the payload of the failed-retry
counterexample. -/
def evSample : EtherscanEvent :=
  ⟨"0xe9", 1⟩

/-- Fixture: an environment with chain head 100, wall clock 0 and a
timestamp lookup returning block 7. -/
def envHead100 : Env :=
  { envBase with getLatestBlock := 100, getBlockByTimestamp := fun _ _ => 7 }

/-- Fixture: as envHead100 but with a timestamp lookup returning block 9
instead, to exhibit independence from the lookup on future windows. -/
def envHead100' : Env :=
  { envHead100 with getBlockByTimestamp := fun _ _ => 9 }

/-- Fixture: a discovery lookup that succeeds for hash 0xok with recipient
0xdd and fails for every other hash. -/
def rpcLookupSample : String → Option RpcTransaction :=
  fun h => if h = "0xok" then some ⟨some "0xdd"⟩ else none

/-- Folding addition of a projection over a list equals the initial
accumulator plus the sum of the projected list. -/
theorem foldl_add_eq_add_sum {α : Type} (f : α → Int) (l : List α) :
    ∀ init : Int, l.foldl (fun s x => s + f x) init = init + (l.map f).sum := by
  induction l with
  | nil => intro init; simp
  | cons hd tl ih => intro init; simp [ih, add_assoc]

/-- Folding addition of a projection from 0 is the sum of the projected
list. -/
theorem foldl_add_eq_sum {α : Type} (f : α → Int) (l : List α) :
    l.foldl (fun s x => s + f x) 0 = (l.map f).sum := by
  simpa using foldl_add_eq_add_sum f l 0

/-- The sum of a projection over a filtered list equals the sum of the
projection gated pointwise by the filter predicate. -/
theorem sum_map_filter {α : Type} (p : α → Bool) (f : α → Int) (l : List α) :
    ((l.filter p).map f).sum = (l.map fun x => if p x then f x else 0).sum := by
  induction l with
  | nil => simp
  | cons hd tl ih => by_cases h : p hd <;> simp [List.filter_cons, h, ih]

/-- Sums of two projections over one list combine into the sum of the
pointwise addition. -/
theorem sum_map_add {α : Type} (f g : α → Int) (l : List α) :
    (l.map f).sum + (l.map g).sum = (l.map fun x => f x + g x).sum := by
  induction l with
  | nil => simp
  | cons hd tl ih =>
    simp only [List.map_cons, List.sum_cons, ← ih]
    ring

/-- A valid code point round-trips through Char.ofNat. -/
theorem charToNat_ofNat (n : Nat) (h : n.isValidChar) :
    (Char.ofNat n).toNat = n := by
  simp [Char.ofNat, dif_pos h, Char.ofNatAux, Char.toNat]
  rfl

/-- ASCII lowercasing of a character is idempotent. -/
theorem charToLower_idem (c : Char) : c.toLower.toLower = c.toLower := by
  by_cases h : c.toNat ≥ 65 ∧ c.toNat ≤ 90
  · have h1 : c.toLower = Char.ofNat (c.toNat + 32) := by
      simp only [Char.toLower]
      exact if_pos h
    have hv : (c.toNat + 32).isValidChar := Or.inl (by omega)
    have h2 : (Char.ofNat (c.toNat + 32)).toNat = c.toNat + 32 :=
      charToNat_ofNat _ hv
    rw [h1]
    simp only [Char.toLower]
    rw [if_neg (by rw [h2]; omega)]
  · have h1 : c.toLower = c := by
      simp only [Char.toLower]
      exact if_neg h
    rw [h1, h1]

/-- Lowercasing a string is idempotent. -/
theorem toLowerCase_idem (s : String) :
    toLowerCase (toLowerCase s) = toLowerCase s := by
  show String.mk ((s.data.map Char.toLower).map Char.toLower) =
    String.mk (s.data.map Char.toLower)
  congr 1
  rw [List.map_map]
  simp [Function.comp_def, charToLower_idem]

/-- C1: every transaction analyzed by analyzeTransaction satisfies
gasFee = gasUsed * gasPrice, totalInternalValue = contractToWalletValue +
contractToOriginValue and netProfit = totalInternalValue - gasFee by exact
integer arithmetic; on the worked example (gasUsed 21000, gasPrice
50000000000, one contract-to-wallet internal transfer of
2000000000000000) the gas fee is 1050000000000000 and the net profit
950000000000000; with no internal transfers the net profit of the same
transaction is the negative value -1050000000000000, not floored at
zero. -/
theorem C1_profit_equations :
    (∀ (env : Env) (a : Analyzer) (tx : EtherscanTransaction),
      (analyzeTransaction env a tx).gasFee = tx.gasUsed * tx.gasPrice ∧
      (analyzeTransaction env a tx).totalInternalValue =
        (analyzeTransaction env a tx).contractToWalletValue +
          (analyzeTransaction env a tx).contractToOriginValue ∧
      (analyzeTransaction env a tx).netProfit =
        (analyzeTransaction env a tx).totalInternalValue -
          (analyzeTransaction env a tx).gasFee) ∧
    (analyzeTransaction envSample aSample txSample).gasFee = 1050000000000000 ∧
    (analyzeTransaction envSample aSample txSample).netProfit = 950000000000000 ∧
    (analyzeTransaction envBase aSample txSample).netProfit = -1050000000000000 := by
  exact ⟨fun env a tx => ⟨rfl, rfl, rfl⟩, by decide, by decide, by decide⟩

/-- C2: in every DailyAnalysis the totalProfit, totalGasFees and
totalInternalValue aggregates equal the exact integer sums of the
corresponding per-transaction fields, totalTransactions is the length of
the transactions sequence, and an empty retained transaction set yields
the all-zero analysis rather than an error. -/
theorem C2_daily_aggregates :
    (∀ (env : Env) (a : Analyzer) (date : String),
      (analyzeDailyTransactions env a date).totalProfit =
        ((analyzeDailyTransactions env a date).transactions.map
          (fun t => t.netProfit)).sum ∧
      (analyzeDailyTransactions env a date).totalGasFees =
        ((analyzeDailyTransactions env a date).transactions.map
          (fun t => t.gasFee)).sum ∧
      (analyzeDailyTransactions env a date).totalInternalValue =
        ((analyzeDailyTransactions env a date).transactions.map
          (fun t => t.totalInternalValue)).sum ∧
      (analyzeDailyTransactions env a date).totalTransactions =
        (analyzeDailyTransactions env a date).transactions.length) ∧
    analyzeDailyTransactions envBase aSample "2025-09-10" =
      { date := "2025-09-10", transactions := [], totalProfit := 0,
        totalTransactions := 0, totalGasFees := 0, totalInternalValue := 0 } := by
  constructor
  · intro env a date
    refine ⟨?_, ?_, ?_, rfl⟩ <;> simp [analyzeDailyTransactions, foldl_add_eq_sum]
  · decide

/-- C3: the daily window is half-open, retaining among the fetched
transactions exactly those with startTimestamp ≤ timeStamp <
endTimestamp where endTimestamp = startTimestamp + 86400; for date
2025-09-10 with the 14:00 UTC anchor, startTimestamp = 1757512800 and
endTimestamp = 1757599200, a transaction at 1757512800 is retained and
ones at 1757512799 and 1757599200 are not. -/
theorem C3_half_open_window :
    (∀ (env : Env) (a : Analyzer) (date : String) (tx : EtherscanTransaction),
      tx ∈ dayTransactionsOf env a date ↔
        tx ∈ env.getContractTransactions a.contractAddress
            (env.getBlockByTimestamp (startTimestampOf date) Closest.after)
            (resolveEndBlock env (endTimestampOf date)) ∧
        startTimestampOf date ≤ tx.timeStamp ∧
        tx.timeStamp < endTimestampOf date) ∧
    (∀ date : String, endTimestampOf date = startTimestampOf date + 86400) ∧
    startTimestampOf "2025-09-10" = 1757512800 ∧
    endTimestampOf "2025-09-10" = 1757599200 ∧
    txAtStart ∈ dayTransactionsOf envBoundary aSample "2025-09-10" ∧
    txJustBefore ∉ dayTransactionsOf envBoundary aSample "2025-09-10" ∧
    txAtEnd ∉ dayTransactionsOf envBoundary aSample "2025-09-10" := by
  refine ⟨?_, fun _ => rfl, by decide, by decide, by decide, by decide, by decide⟩
  intro env a date tx
  simp [dayTransactionsOf, List.mem_filter, and_assoc]

/-- C4: for an analyzer constructed from contract address c and main
wallet address w, an internal transfer is summed into
contractToWalletValue exactly when its from equals c and its to equals w
under case-insensitive comparison, into contractToOriginValue exactly
when its from equals c, its to equals the outer transaction sender and
its to differs from w, and every transfer matching neither rule
contributes nothing to totalInternalValue. -/
theorem C4_internal_transfer_partition :
    ∀ (env : Env) (c w : String) (tx : EtherscanTransaction),
      ((analyzeTransaction env (Analyzer.make c w) tx).contractToWalletValue =
        ((env.getInternalTransactions tx.hash).map fun itx =>
          if eqCaseInsensitive itx.«from» c && eqCaseInsensitive itx.«to» w
          then itx.value else 0).sum) ∧
      ((analyzeTransaction env (Analyzer.make c w) tx).contractToOriginValue =
        ((env.getInternalTransactions tx.hash).map fun itx =>
          if eqCaseInsensitive itx.«from» c &&
              (eqCaseInsensitive itx.«to» tx.«from» &&
                !eqCaseInsensitive itx.«to» w)
          then itx.value else 0).sum) ∧
      ((analyzeTransaction env (Analyzer.make c w) tx).totalInternalValue =
        ((env.getInternalTransactions tx.hash).map fun itx =>
          if eqCaseInsensitive itx.«from» c && eqCaseInsensitive itx.«to» w
          then itx.value
          else
            if eqCaseInsensitive itx.«from» c &&
                (eqCaseInsensitive itx.«to» tx.«from» &&
                  !eqCaseInsensitive itx.«to» w)
            then itx.value else 0).sum) := by
  intro env c w tx
  have hW : (analyzeTransaction env (Analyzer.make c w) tx).contractToWalletValue =
      ((env.getInternalTransactions tx.hash).map fun itx =>
        if eqCaseInsensitive itx.«from» c && eqCaseInsensitive itx.«to» w
        then itx.value else 0).sum := by
    simp [analyzeTransaction, Analyzer.make, eqCaseInsensitive,
      foldl_add_eq_sum, sum_map_filter]
  have hO : (analyzeTransaction env (Analyzer.make c w) tx).contractToOriginValue =
      ((env.getInternalTransactions tx.hash).map fun itx =>
        if eqCaseInsensitive itx.«from» c &&
            (eqCaseInsensitive itx.«to» tx.«from» &&
              !eqCaseInsensitive itx.«to» w)
        then itx.value else 0).sum := by
    simp [analyzeTransaction, Analyzer.make, eqCaseInsensitive,
      foldl_add_eq_sum, sum_map_filter, and_assoc]
  refine ⟨hW, hO, ?_⟩
  have htot : (analyzeTransaction env (Analyzer.make c w) tx).totalInternalValue =
      (analyzeTransaction env (Analyzer.make c w) tx).contractToWalletValue +
        (analyzeTransaction env (Analyzer.make c w) tx).contractToOriginValue := rfl
  rw [htot, hW, hO, sum_map_add]
  apply congrArg List.sum
  apply List.map_congr_left
  intro itx _
  cases h1 : eqCaseInsensitive itx.«from» c <;>
    cases h2 : eqCaseInsensitive itx.«to» w <;>
      cases h3 : eqCaseInsensitive itx.«to» tx.«from» <;> simp

/-- C10: the produced DailyAnalysis is invariant under the letter casing
of the configured addresses: an analyzer constructed from any mixed-case
contract and wallet address strings produces exactly the analysis of the
one constructed from their lowercase forms, because the constructor
normalizes both addresses and lowercasing is idempotent. -/
theorem C10_case_invariance :
    ∀ (env : Env) (c w date : String),
      analyzeDailyTransactions env (Analyzer.make c w) date =
        analyzeDailyTransactions env
          (Analyzer.make (toLowerCase c) (toLowerCase w)) date := by
  intro env c w date
  have h : Analyzer.make c w = Analyzer.make (toLowerCase c) (toLowerCase w) := by
    simp [Analyzer.make, toLowerCase_idem]
  rw [h]

/-- Membership in the batching loop: with a positive step size, the
concatenated windows retrieve exactly the universe records whose block
number lies between the cursor and the end block. -/
theorem mem_getEventLogsLoop (univ : List EtherscanEvent) (toBlock W : Nat)
    (hW : 0 < W) :
    ∀ (i : Nat) (e : EtherscanEvent),
      e ∈ getEventLogsLoop univ toBlock W i ↔
        e ∈ univ ∧ i ≤ e.blockNumber ∧ e.blockNumber ≤ toBlock := by
  have main : ∀ (n i : Nat), toBlock + 1 - i ≤ n → ∀ e : EtherscanEvent,
      (e ∈ getEventLogsLoop univ toBlock W i ↔
        e ∈ univ ∧ i ≤ e.blockNumber ∧ e.blockNumber ≤ toBlock) := by
    intro n
    induction n with
    | zero =>
      intro i hi e
      rw [getEventLogsLoop.eq_def, dif_neg (by omega : ¬(i ≤ toBlock ∧ 0 < W))]
      constructor
      · intro h
        exact absurd h (List.not_mem_nil e)
      · rintro ⟨-, h1, h2⟩
        omega
    | succ n ih =>
      intro i hi e
      rw [getEventLogsLoop.eq_def]
      by_cases hcase : i ≤ toBlock ∧ 0 < W
      · rw [dif_pos hcase, List.mem_append]
        have hwin : e ∈ windowRecords univ i (if toBlock > i + W then i + W else toBlock) ↔
            e ∈ univ ∧ i ≤ e.blockNumber ∧
              e.blockNumber ≤ (if toBlock > i + W then i + W else toBlock) := by
          simp [windowRecords, List.mem_filter, and_assoc]
        rw [hwin, ih (i + W) (by omega) e]
        have hm : (if toBlock > i + W then i + W else toBlock) ≤ toBlock := by
          split <;> omega
        constructor
        · rintro (⟨hu, hl1, hl2⟩ | ⟨hu, hl1, hl2⟩)
          · exact ⟨hu, hl1, by omega⟩
          · exact ⟨hu, by omega, hl2⟩
        · rintro ⟨hu, hl1, hl2⟩
          by_cases hle : e.blockNumber ≤ (if toBlock > i + W then i + W else toBlock)
          · exact Or.inl ⟨hu, hl1, hle⟩
          · refine Or.inr ⟨hu, ?_, hl2⟩
            revert hle
            split <;> omega
      · rw [dif_neg hcase]
        constructor
        · intro h
          exact absurd h (List.not_mem_nil e)
        · rintro ⟨-, h1, h2⟩
          omega
  intro i e
  exact main (toBlock + 1 - i) i (Nat.le_refl _) e

/-- C5: batching is idempotent: for any block interval and any two
positive window sizes, advancing the cursor in steps of the first size
(each step bounded by the smaller of cursor + W and the end block) yields
exactly the same set of records as advancing in steps of the second size,
given that the upstream service answers each window with exactly the
records whose block number lies in it. -/
theorem C5_batching_idempotent :
    ∀ (univ : List EtherscanEvent) (A B W1 W2 : Nat),
      0 < W1 → 0 < W2 →
      (getEventLogsByAddress univ A B W1).toFinset =
        (getEventLogsByAddress univ A B W2).toFinset := by
  intro univ A B W1 W2 h1 h2
  ext e
  simp [getEventLogsByAddress,
    mem_getEventLogsLoop univ B W1 h1, mem_getEventLogsLoop univ B W2 h2]

/-- Witness for C5 at window sizes 3 and 7 over blocks 4 to 20. -/
theorem C5_batching_idempotent_witness :
    0 < 3 ∧ 0 < 7 ∧
    (getEventLogsByAddress eventsUniv 4 20 3).toFinset =
      (getEventLogsByAddress eventsUniv 4 20 7).toFinset :=
  ⟨by decide, by decide,
    C5_batching_idempotent eventsUniv 4 20 3 7 (by decide) (by decide)⟩

/-- C6: the resolved endBlock equals the latest chain head whenever the
window end lies in the future of the wall clock — independently of the
timestamp lookup, which is not consulted in that case — and otherwise
equals the at-or-before timestamp lookup clamped to the latest head; in
all cases the resolved endBlock never exceeds the latest known block. -/
theorem C6_resolveEndBlock :
    ∀ (env : Env) (ts : Int),
      resolveEndBlock env ts =
        (if (ts : ℚ) > env.now then env.getLatestBlock
         else min (env.getBlockByTimestamp ts Closest.before) env.getLatestBlock) ∧
      resolveEndBlock env ts ≤ env.getLatestBlock ∧
      ((ts : ℚ) > env.now → ∀ env2 : Env,
        env2.getLatestBlock = env.getLatestBlock → env2.now = env.now →
        resolveEndBlock env2 ts = resolveEndBlock env ts) := by
  intro env ts
  have heq : resolveEndBlock env ts =
      (if (ts : ℚ) > env.now then env.getLatestBlock
       else min (env.getBlockByTimestamp ts Closest.before) env.getLatestBlock) := by
    unfold resolveEndBlock
    by_cases h : (ts : ℚ) > env.now
    · simp [h]
    · simp only [h, if_false]
      rw [Nat.min_def]
      split <;> split <;> omega
  refine ⟨heq, ?_, ?_⟩
  · rw [heq]
    split
    · exact Nat.le_refl _
    · exact Nat.min_le_right _ _
  · intro h env2 hL hnow
    have heq2 : resolveEndBlock env2 ts =
        (if (ts : ℚ) > env2.now then env2.getLatestBlock
         else min (env2.getBlockByTimestamp ts Closest.before) env2.getLatestBlock) := by
      unfold resolveEndBlock
      by_cases h2 : (ts : ℚ) > env2.now
      · simp [h2]
      · simp only [h2, if_false]
        rw [Nat.min_def]
        split <;> split <;> omega
    rw [heq, heq2, hL, hnow, if_pos h, if_pos h]

/-- Witness for C6 on a future window end: chain head 100, wall clock 0,
window end 5, with two environments whose timestamp lookups differ. -/
theorem C6_resolveEndBlock_witness :
    ((5 : Int) : ℚ) > envHead100.now ∧
    resolveEndBlock envHead100' 5 = resolveEndBlock envHead100 5 ∧
    resolveEndBlock envHead100 5 ≤ envHead100.getLatestBlock := by
  have h : ((5 : Int) : ℚ) > envHead100.now := by
    norm_num [envHead100, envBase]
  exact ⟨h, (C6_resolveEndBlock envHead100 5).2.2 h envHead100' rfl rfl,
    (C6_resolveEndBlock envHead100 5).2.1⟩

/-- C7 counterexample: when the primary log-listing call and its retry
both answer with the non-success status "0", the step does not return an
empty result but the result field of the retry response unchanged — here
the non-empty list holding evSample; and the transaction-listing call
getContractTransactions is never retried: its thrown transport error
propagates as an error that aborts the fetch instead of yielding an empty
step result. -/
theorem C7_counterexample :
    (getEventLogsByAddressAndTopicRun (ApiResponse.ok "0" [])
        (ApiResponse.ok "0" [evSample])).value = [evSample] ∧
    [evSample] ≠ ([] : List EtherscanEvent) ∧
    getContractTransactionsRun ApiResponse.threw =
      Except.error "Error fetching contract transactions" := by
  exact ⟨rfl, by decide, rfl⟩

/-- C7 amended: only the log-listing call getEventLogsByAddressAndTopic
retries, exactly once after a 1000 ms sleep, and only upon a response
whose status is not "1"; after a retry the step returns the result field
of the second response whatever its status, and a thrown transport error
from either call yields an empty step result.  The transaction-listing
call getContractTransactions is never retried: a non-success status
yields an empty result from its single call, and a thrown transport
error propagates as an error. -/
theorem C7_amended_retry_semantics :
    (∀ (r : List EtherscanEvent) (second : ApiResponse (List EtherscanEvent)),
      getEventLogsByAddressAndTopicRun (ApiResponse.ok "1" r) second = ⟨r, 1, 0⟩) ∧
    (∀ second : ApiResponse (List EtherscanEvent),
      getEventLogsByAddressAndTopicRun ApiResponse.threw second = ⟨[], 1, 0⟩) ∧
    (∀ (s s2 : String) (r r2 : List EtherscanEvent), s ≠ "1" →
      getEventLogsByAddressAndTopicRun (ApiResponse.ok s r)
        (ApiResponse.ok s2 r2) = ⟨r2, 2, 1000⟩) ∧
    (∀ (s : String) (r : List EtherscanEvent), s ≠ "1" →
      getEventLogsByAddressAndTopicRun (ApiResponse.ok s r)
        ApiResponse.threw = ⟨[], 2, 1000⟩) ∧
    (∀ r : List EtherscanTransaction,
      getContractTransactionsRun (ApiResponse.ok "1" r) = Except.ok r) ∧
    (∀ (s : String) (r : List EtherscanTransaction), s ≠ "1" →
      getContractTransactionsRun (ApiResponse.ok s r) = Except.ok []) ∧
    getContractTransactionsRun ApiResponse.threw =
      Except.error "Error fetching contract transactions" := by
  refine ⟨fun r second => ?_, fun second => rfl, fun s s2 r r2 hs => ?_,
    fun s r hs => ?_, fun r => rfl, fun s r hs => ?_, rfl⟩
  · simp [getEventLogsByAddressAndTopicRun]
  · simp [getEventLogsByAddressAndTopicRun, hs]
  · simp [getEventLogsByAddressAndTopicRun, hs]
  · simp [getContractTransactionsRun, hs]

/-- Witness for C7 amended at status "0". -/
theorem C7_amended_retry_semantics_witness :
    ("0" : String) ≠ "1" ∧
    getEventLogsByAddressAndTopicRun (ApiResponse.ok "0" [evSample])
      ApiResponse.threw = ⟨[], 2, 1000⟩ ∧
    getContractTransactionsRun (ApiResponse.ok "0" []) = Except.ok [] :=
  ⟨by decide,
    C7_amended_retry_semantics.2.2.2.1 "0" [evSample] (by decide),
    C7_amended_retry_semantics.2.2.2.2.2.1 "0" [] (by decide)⟩

/-- C8: enrichment failures are neutralized and isolated per item: a
transaction whose internal-transfer lookup yields nothing receives zero
contractToWalletValue, contractToOriginValue and totalInternalValue and a
net profit of minus its gas fee; failing the lookup of one parent hash
leaves the analysis of every transaction with a different hash unchanged;
and the client substitutes the neutral empty list for a thrown
internal-transfer lookup and the neutral 0 for a failed price lookup. -/
theorem C8_enrichment_isolation :
    (∀ (env : Env) (a : Analyzer) (tx : EtherscanTransaction),
      env.getInternalTransactions tx.hash = [] →
        (analyzeTransaction env a tx).contractToWalletValue = 0 ∧
        (analyzeTransaction env a tx).contractToOriginValue = 0 ∧
        (analyzeTransaction env a tx).totalInternalValue = 0 ∧
        (analyzeTransaction env a tx).netProfit =
          -(analyzeTransaction env a tx).gasFee) ∧
    (∀ (env : Env) (a : Analyzer) (X : String) (tx : EtherscanTransaction),
      tx.hash ≠ X →
        analyzeTransaction (failInternalLookupAt env X) a tx =
          analyzeTransaction env a tx) ∧
    (∀ (env : Env) (a : Analyzer) (X : String) (tx : EtherscanTransaction),
      tx.hash = X →
        (analyzeTransaction (failInternalLookupAt env X) a tx).totalInternalValue = 0 ∧
        (analyzeTransaction (failInternalLookupAt env X) a tx).netProfit =
          -(analyzeTransaction (failInternalLookupAt env X) a tx).gasFee) ∧
    getInternalTransactionsRun ApiResponse.threw = [] ∧
    getEthPriceRun ApiResponse.threw = 0 ∧
    (∀ (s : String) (p : ℚ), s ≠ "1" → getEthPriceRun (ApiResponse.ok s p) = 0) := by
  have part1 : ∀ (env : Env) (a : Analyzer) (tx : EtherscanTransaction),
      env.getInternalTransactions tx.hash = [] →
        (analyzeTransaction env a tx).contractToWalletValue = 0 ∧
        (analyzeTransaction env a tx).contractToOriginValue = 0 ∧
        (analyzeTransaction env a tx).totalInternalValue = 0 ∧
        (analyzeTransaction env a tx).netProfit =
          -(analyzeTransaction env a tx).gasFee := by
    intro env a tx h
    refine ⟨?_, ?_, ?_, ?_⟩ <;> simp [analyzeTransaction, h]
  refine ⟨part1, ?_, ?_, rfl, rfl, ?_⟩
  · intro env a X tx hne
    simp [analyzeTransaction, failInternalLookupAt, hne]
  · intro env a X tx hX
    have hempty : (failInternalLookupAt env X).getInternalTransactions tx.hash = [] := by
      simp [failInternalLookupAt, hX]
    exact ⟨(part1 _ a tx hempty).2.2.1, (part1 _ a tx hempty).2.2.2⟩
  · intro s p hs
    simp [getEthPriceRun, hs]

/-- Witness for C8: the all-empty environment zeroes the sample
transaction, failing an unrelated hash leaves the sample analysis
unchanged, and a status-0 price response yields 0. -/
theorem C8_enrichment_isolation_witness :
    envBase.getInternalTransactions txSample.hash = [] ∧
    (analyzeTransaction envBase aSample txSample).netProfit =
      -(analyzeTransaction envBase aSample txSample).gasFee ∧
    txSample.hash ≠ "0xZ" ∧
    analyzeTransaction (failInternalLookupAt envSample "0xZ") aSample txSample =
      analyzeTransaction envSample aSample txSample ∧
    ("0" : String) ≠ "1" ∧
    getEthPriceRun (ApiResponse.ok "0" 5) = 0 :=
  ⟨rfl,
    (C8_enrichment_isolation.1 envBase aSample txSample rfl).2.2.2,
    by decide,
    C8_enrichment_isolation.2.1 envSample aSample "0xZ" txSample (by decide),
    by decide,
    C8_enrichment_isolation.2.2.2.2.2 "0" 5 (by decide)⟩

/-- C9: the discovery fan-out completes with one result per input hash,
merged by original position, and every item whose lookup fails
contributes the neutral empty string at its own position without
aborting the others. -/
theorem C9_fanout_isolates_failures :
    ∀ (lookup : String → Option RpcTransaction) (hashes : List String),
      (fanOutRecipients lookup hashes).length = hashes.length ∧
      ∀ p ∈ hashes.zip (fanOutRecipients lookup hashes),
        lookup p.1 = none → p.2 = "" := by
  intro lookup hashes
  constructor
  · simp [fanOutRecipients]
  · induction hashes with
    | nil => simp
    | cons hd tl ih =>
      intro p hp hfail
      rw [show fanOutRecipients lookup (hd :: tl) =
          (match getTransactionByHash lookup hd with
            | none => ""
            | some t => t.«to».getD "") :: fanOutRecipients lookup tl from rfl,
        List.zip_cons_cons] at hp
      rcases List.mem_cons.mp hp with hp | hp
      · subst hp
        simp only [getTransactionByHash] at hfail ⊢
        simp [hfail]
      · exact ih p hp hfail

/-- Witness for C9: hash 0xok resolves to recipient 0xdd while the lookup
of hash 0xfail fails and yields the empty string in its position. -/
theorem C9_fanout_isolates_failures_witness :
    (("0xfail", "") ∈ ["0xok", "0xfail"].zip
      (fanOutRecipients rpcLookupSample ["0xok", "0xfail"])) ∧
    rpcLookupSample "0xfail" = none ∧
    ("" : String) = "" :=
  ⟨by decide, by decide,
    (C9_fanout_isolates_failures rpcLookupSample ["0xok", "0xfail"]).2
      ("0xfail", "") (by decide) (by decide)⟩

end ContractAnalyzerSpec
